import Mathlib

/-!
Verification of the xsra parallel streaming extraction engine.

Shallow embedding of the relevant source functions:
* `src/dump/utils.rs`   — `write_fastq`, `write_fasta`, `write_segment_to_buffer_set`
* `src/dump/stats.rs`   — `ProcessStatistics` with its `Add` impl and counters
* `src/dump/mod.rs`     — the worker loop of `launch_threads`, the row
  partitioning arithmetic, and the empty-file cleanup of `dump`
* `src/fastq_dump.rs`   — the per-segment branch structure of `process_range`
* `src/recode/mod.rs`   — `recode_to_binseq` length-variance check and the
  paired-spot segment resolution
* `src/describe/`       — the mean-length computation used by the recode survey

Bytes are modelled as `Nat`; machine counters (`u64`) as `Nat` (no overflow is
reachable for the quantities involved); Rust `Vec<u64>` as `List Nat`;
fallible code as `Except String`.
-/

/-- LF byte (`\n`). -/
def lfByte : Nat := 10

/-- `@` byte. -/
def atByte : Nat := 64

/-- `.` byte. -/
def dotByte : Nat := 46

/-- `+` byte. -/
def plusByte : Nat := 43

/-- `>` byte. -/
def gtByte : Nat := 62

/-- Decimal digits of `n`, most significant first, with explicit fuel so the
definition is structurally recursive (fuel `n+1` always suffices). -/
def decDigitsAux : Nat → Nat → List Nat
  | 0, _ => []
  | fuel + 1, n => if n < 10 then [n] else decDigitsAux fuel (n / 10) ++ [n % 10]

/-- Decimal digits of `n`, most significant first (`0` renders as `[0]`). -/
def decDigits (n : Nat) : List Nat := decDigitsAux (n + 1) n

/-- ASCII decimal rendering of `n`, as produced by Rust's integer `Display`. -/
def asciiDec (n : Nat) : List Nat := (decDigits n).map (· + 48)

/-- A borrowed segment view (`ncbi_vdb::Segment`): spot row id, segment index,
technical flag, sequence bytes and quality bytes. -/
structure Segment where
  rid : Nat
  sid : Nat
  isTechnical : Bool
  seqBytes : List Nat
  qualBytes : List Nat
deriving Repr, DecidableEq

/-- `write_fastq` from `src/dump/utils.rs`:
`writeln!(wtr, "@rid.sid")`, the raw sequence, `writeln!(wtr, "\n+")`,
the raw quality, `writeln!(wtr)`. -/
def write_fastq (s : Segment) : List Nat :=
  [atByte] ++ asciiDec s.rid ++ [dotByte] ++ asciiDec s.sid ++ [lfByte]
    ++ s.seqBytes ++ [lfByte, plusByte, lfByte] ++ s.qualBytes ++ [lfByte]

/-- `write_fasta` from `src/dump/utils.rs`. -/
def write_fasta (s : Segment) : List Nat :=
  [gtByte] ++ asciiDec s.rid ++ [dotByte] ++ asciiDec s.sid ++ [lfByte]
    ++ s.seqBytes ++ [lfByte]

/-- Output format selector (`cli/dump.rs`). -/
inductive OutputFormat where
  | Fastq
  | Fasta
deriving Repr, DecidableEq

/-- Encode one segment in the selected format. -/
def encodeSegment (format : OutputFormat) (s : Segment) : List Nat :=
  match format with
  | .Fastq => write_fastq s
  | .Fasta => write_fasta s

/-- `write_segment_to_buffer_set` from `src/dump/utils.rs`: with a single
buffer (interleaved) everything goes to index 0; otherwise the segment id
selects the buffer and an out-of-range id is an error (nothing is appended). -/
def write_segment_to_buffer_set (buffers : List (List Nat)) (s : Segment)
    (format : OutputFormat) : Except String (List (List Nat)) :=
  if buffers.length = 1 then
    .ok (buffers.set 0 (buffers.getD 0 [] ++ encodeSegment format s))
  else if s.sid ≥ buffers.length then
    .error ("Provided Segment ID: " ++ toString s.sid
      ++ " is above the expected 4-segment counts")
  else
    .ok (buffers.set s.sid (buffers.getD s.sid [] ++ encodeSegment format s))

/-- Concatenation of LF-terminated lines. -/
def joinLinesLF (lines : List (List Nat)) : List Nat :=
  (lines.map (· ++ [lfByte])).flatten

/-- `ProcessStatistics` from `src/dump/stats.rs`. -/
structure ProcessStatistics where
  num_spots : Nat
  num_reads : Nat
  reads_per_segment : List Nat
  filter_size : List Nat
  filter_type : List Nat
deriving Repr, DecidableEq

/-- `ProcessStatistics::default()`: zero counters, per-segment vectors of
length 4. -/
def statsDefault : ProcessStatistics :=
  ⟨0, 0, List.replicate 4 0, List.replicate 4 0, List.replicate 4 0⟩

/-- `Vec::resize(n, 0)` in the only way the source uses it (growing). -/
def growTo (v : List Nat) (n : Nat) : List Nat :=
  v ++ List.replicate (n - v.length) 0

/-- The shared pattern of `inc_reads` / `inc_filter_size` / `inc_filter_type`:
grow the vector to cover `i`, then increment entry `i`. -/
def bumpAt (v : List Nat) (i : Nat) : List Nat :=
  let w := growTo v (i + 1)
  w.set i (w.getD i 0 + 1)

/-- `ProcessStatistics::inc_spots`. -/
def inc_spots (st : ProcessStatistics) : ProcessStatistics :=
  { st with num_spots := st.num_spots + 1 }

/-- `ProcessStatistics::inc_reads`. -/
def inc_reads (st : ProcessStatistics) (seg_id : Nat) : ProcessStatistics :=
  { st with num_reads := st.num_reads + 1,
            reads_per_segment := bumpAt st.reads_per_segment seg_id }

/-- `ProcessStatistics::inc_filter_size`. -/
def inc_filter_size (st : ProcessStatistics) (seg_id : Nat) : ProcessStatistics :=
  { st with filter_size := bumpAt st.filter_size seg_id }

/-- `ProcessStatistics::inc_filter_type`. -/
def inc_filter_type (st : ProcessStatistics) (seg_id : Nat) : ProcessStatistics :=
  { st with filter_type := bumpAt st.filter_type seg_id }

/-- The per-vector step of `ProcessStatistics::add`: resize `self`'s vector
up to `other`'s length if it is shorter, then `zip` (which truncates to the
shorter of the two, i.e. to `other`'s length) and sum pointwise. -/
def vec_add (a b : List Nat) : List Nat :=
  let a' := if a.length < b.length then a ++ List.replicate (b.length - a.length) 0 else a
  List.zipWith (fun x y => x + y) a' b

/-- `impl Add for ProcessStatistics` from `src/dump/stats.rs` (identical in
`src/fastq_dump.rs`). -/
def statsAdd (a b : ProcessStatistics) : ProcessStatistics :=
  { num_spots := a.num_spots + b.num_spots
    num_reads := a.num_reads + b.num_reads
    reads_per_segment := vec_add a.reads_per_segment b.reads_per_segment
    filter_size := vec_add a.filter_size b.filter_size
    filter_type := vec_add a.filter_type b.filter_type }

/-- `FilterOptions` from `src/cli/filter.rs` (the `limit` field is applied by
the coordinator, not per segment, and is not needed here). -/
structure FilterOptions where
  min_read_len : Nat
  skip_technical : Bool
  includeSet : List Nat
deriving Repr, DecidableEq

/-- Outcome of the per-segment filter cascade in the worker loop of
`launch_threads` (`src/dump/mod.rs`, lines 68-101). -/
inductive FilterResult where
  | skippedInclude
  | droppedType
  | droppedSize
  | accepted
deriving Repr, DecidableEq

/-- The branch structure of the per-segment filter in `launch_threads`:
include-set check (silent), then technical check, then length check. -/
def filterSegment (opts : FilterOptions) (s : Segment) : FilterResult :=
  if opts.includeSet ≠ [] ∧ s.sid ∉ opts.includeSet then .skippedInclude
  else if opts.skip_technical ∧ s.isTechnical then .droppedType
  else if s.seqBytes.length < opts.min_read_len then .droppedSize
  else .accepted

/-- One iteration of the inner segment loop of `launch_threads`: apply the
filter, update the statistics counters exactly as the source does, and write
accepted segments into the chunk-buffer set. -/
def processSegment (opts : FilterOptions) (format : OutputFormat)
    (acc : ProcessStatistics × List (List Nat)) (s : Segment) :
    Except String (ProcessStatistics × List (List Nat)) :=
  match filterSegment opts s with
  | .skippedInclude => .ok acc
  | .droppedType => .ok (inc_filter_type acc.1 s.sid, acc.2)
  | .droppedSize => .ok (inc_filter_size acc.1 s.sid, acc.2)
  | .accepted =>
    match write_segment_to_buffer_set acc.2 s format with
    | .error e => .error e
    | .ok buffers => .ok (inc_reads acc.1 s.sid, buffers)

/-- The segment loop over one spot. -/
def processSegments (opts : FilterOptions) (format : OutputFormat)
    (acc : ProcessStatistics × List (List Nat)) :
    List Segment → Except String (ProcessStatistics × List (List Nat))
  | [] => .ok acc
  | s :: rest =>
    match processSegment opts format acc s with
    | .error e => .error e
    | .ok acc' => processSegments opts format acc' rest

/-- One spot of the worker loop: process all segments, then `inc_spots`.
The periodic buffer handoff moves bytes from the chunk buffers to the sink
in order and is output-concatenation-preserving, so the accumulated chunk
buffers here are byte-for-byte the stream each sink receives. -/
def processSpot (opts : FilterOptions) (format : OutputFormat)
    (acc : ProcessStatistics × List (List Nat)) (spot : List Segment) :
    Except String (ProcessStatistics × List (List Nat)) :=
  match processSegments opts format acc spot with
  | .error e => .error e
  | .ok (st, buffers) => .ok (inc_spots st, buffers)

/-- The spot loop of one worker over its row range. -/
def processSpots (opts : FilterOptions) (format : OutputFormat)
    (acc : ProcessStatistics × List (List Nat)) :
    List (List Segment) → Except String (ProcessStatistics × List (List Nat))
  | [] => .ok acc
  | spot :: rest =>
    match processSpot opts format acc spot with
    | .error e => .error e
    | .ok acc' => processSpots opts format acc' rest

/-- One worker of `launch_threads`, starting from default statistics and
`numBuffers` empty chunk buffers (`build_local_buffers` allocates one chunk
buffer per sink; 1 when interleaved). -/
def processRange (opts : FilterOptions) (format : OutputFormat)
    (numBuffers : Nat) (spots : List (List Segment)) :
    Except String (ProcessStatistics × List (List Nat)) :=
  processSpots opts format (statsDefault, List.replicate numBuffers []) spots

/-- Number of segments of a given sid in the given spots falling into a given
filter category. -/
def catCount (opts : FilterOptions) (c : FilterResult) (sid : Nat)
    (segs : List Segment) : Nat :=
  (segs.filter (fun s => s.sid == sid && (filterSegment opts s == c))).length

/-- Segments of a given sid dropped by the include-set across all spots. -/
def skipped_by_include (opts : FilterOptions) (sid : Nat)
    (spots : List (List Segment)) : Nat :=
  (spots.map (catCount opts .skippedInclude sid)).sum

/-- `start` of worker `i` in `launch_threads` (`src/dump/mod.rs` line 47),
with `records_per_thread = N / t` computed in `dump` (line 359). -/
def startRow (N t i : Nat) : Nat := i * (N / t) + 1

/-- `stop` of worker `i` in `launch_threads` (lines 48-52): the last worker
absorbs `remainder = N % t`. -/
def stopRow (N t i : Nat) : Nat :=
  if i = t - 1 then startRow N t i + N / t + N % t - 1
  else startRow N t i + N / t - 1

/-- What `dump` does to the sink path of one segment id after the run
(`src/dump/mod.rs` lines 417-441). -/
inductive CleanupAction where
  | removed
  | warned
  | kept
deriving Repr, DecidableEq

/-- The per-sid body of the empty-file cleanup in `dump`: excluded sids are
skipped; otherwise a zero count or a named-pipe sink leads to removal, unless
`keep_empty` is set, in which case only a warning is emitted. -/
def cleanup_action (includeSet : List Nat) (named_pipes keep_empty : Bool)
    (seg_id count : Nat) : CleanupAction :=
  if includeSet ≠ [] ∧ seg_id ∉ includeSet then .kept
  else if count = 0 ∨ named_pipes = true then
    (if keep_empty then .warned else .removed)
  else .kept

/-- The cleanup pass over `stats.reads_per_segment.iter().enumerate()`. -/
def cleanup_actions (reads_per_segment : List Nat) (includeSet : List Nat)
    (named_pipes keep_empty : Bool) : List CleanupAction :=
  (reads_per_segment.enum).map
    (fun p => cleanup_action includeSet named_pipes keep_empty p.1 p.2)

/-- The branch structure of the per-segment body of `process_range` in
`src/fastq_dump.rs` (lines 317-326): the technical check compares
`read_types[seg_id]` against `0`, then the length check applies. -/
inductive FDResult where
  | droppedType
  | droppedSize
  | written
deriving Repr, DecidableEq

/-- Per-segment classification of `process_range` in `src/fastq_dump.rs`:
`if skip_technical && read_types[seg_id] == 0` drops as technical,
`if len < min_read_len` drops by size, otherwise the segment is written. -/
def classifySegmentFD (skip_technical : Bool) (min_read_len : Nat)
    (read_type len : Nat) : FDResult :=
  if skip_technical && (read_type == 0) then .droppedType
  else if len < min_read_len then .droppedSize
  else .written

/-- The mean of a list of observed segment lengths, as `DescribeStats::average`
in `src/describe/stats.rs` computes it (`0.0` for an empty list, otherwise
`sum / len`). The source computes in `f64`; for a sample of at most a few
hundred `u32` lengths every sum is below `2^53` and IEEE division is correctly
rounded, so the quotient is an integer exactly when the rational quotient is,
and the value is modelled exactly in `ℚ`. -/
def meanLen (lens : List Nat) : ℚ :=
  if lens.length = 0 then 0 else (lens.sum : ℚ) / (lens.length : ℚ)

/-- The per-sid length observations collected by `describe_inner`
(`src/describe/mod.rs`): each sampled spot contributes the length of its
segment with that sid, when present. A spot is modelled as its list of
segment lengths indexed by sid, per the data model (`sid` is the segment's
index within its spot). -/
def segmentLengthSamples (sample : List (List Nat)) (sid : Nat) : List Nat :=
  sample.filterMap (fun spot => spot.get? sid)

/-- Mean observed length of segment `sid` over the sample
(`DescribeStats::segment_lengths`). -/
def sidMeanLength (sample : List (List Nat)) (sid : Nat) : ℚ :=
  meanLen (segmentLengthSamples sample sid)

/-- Rust's `f64::fract() == 0.0` on a sample mean: the value is an integer. -/
def fractIsZero (q : ℚ) : Bool := q.den == 1

/-- The error message of the BINSEQ length-variance bailout in
`recode_to_binseq` (`src/recode/mod.rs` lines 69 and 76). -/
def binseqVarianceMsg (sid : Nat) : String :=
  "Segment ID " ++ toString sid
    ++ " shows variance in length. Cannot encode to BINSEQ (try VBINSEQ instead)"

/-- Result of the header-derivation phase of `recode_to_binseq`:
whether `File::create(output_path)` was reached, and the outcome
(`(slen, xlen)` on success). -/
structure BinseqRun where
  file_created : Bool
  result : Except String (Nat × Nat)
deriving Repr

/-- The header-derivation phase of `recode_to_binseq` (`src/recode/mod.rs`
lines 56-87): survey the archive, check the primary sid's mean length for
integrality, then the extended sid's (if paired), and only then create the
output file. Modelled from the spec for the sampling window: the survey
`describe_inner(accession, 0, 100)` reads the leading spots of the archive
through the external range iterator — "sample the first 100 spots". -/
def recode_to_binseq (archive : List (List Nat)) (primary_sid : Nat)
    (extended_sid : Option Nat) : BinseqRun :=
  let sample := archive.take 100
  let pMean := sidMeanLength sample primary_sid
  if fractIsZero pMean then
    match extended_sid with
    | none => ⟨true, .ok (pMean.num.toNat, 0)⟩
    | some e =>
      let eMean := sidMeanLength sample e
      if fractIsZero eMean then ⟨true, .ok (pMean.num.toNat, eMean.num.toNat)⟩
      else ⟨false, .error (binseqVarianceMsg e)⟩
  else ⟨false, .error (binseqVarianceMsg primary_sid)⟩

/-- `Record::get_segment` of the external reader, modelled from the spec:
"primary and extended sids both resolved per spot" — the segment of the spot
carrying the requested sid, when present. -/
def get_segment (spot : List Segment) (sid : Nat) : Option Segment :=
  spot.find? (fun s => s.sid == sid)

/-- How a recode worker terminates on a spot. -/
inductive RecodeFailure where
  | panicked (msg : String)
  | schemaError (msg : String)
deriving Repr, DecidableEq

/-- The paired-mode per-spot body of the recode workers (`src/recode/mod.rs`
lines 121-123 and 206-214): both segment lookups go through
`Option::unwrap()`, so a spot missing either sid panics the worker thread
rather than producing an error value. -/
def recode_spot_paired (spot : List Segment) (primary_sid extended_sid : Nat) :
    Except RecodeFailure Unit :=
  match get_segment spot primary_sid with
  | none => .error (.panicked "called Option::unwrap on a None value")
  | some _ =>
    match get_segment spot extended_sid with
    | none => .error (.panicked "called Option::unwrap on a None value")
    | some _ => .ok ()

/-- `true` exactly on a `SchemaError` outcome. -/
def isSchemaFailure : Except RecodeFailure Unit → Bool
  | .error (.schemaError _) => true
  | _ => false

/-- The archive of concrete scenario 1 of the spec: 3 spots (rids 1..3) of
2 segments each (sids 0..1), biological, 4-base sequences with matching
quality strings. -/
def scenarioSpot (rid : Nat) : List Segment :=
  [⟨rid, 0, false, [65, 67, 71, 84], [73, 73, 73, 73]⟩,
   ⟨rid, 1, false, [84, 71, 67, 65], [70, 70, 70, 70]⟩]

/-- The 3-spot scenario archive. -/
def scenarioArchive : List (List Segment) :=
  [scenarioSpot 1, scenarioSpot 2, scenarioSpot 3]

/-- No filtering: empty include-set, keep technical, no length minimum. -/
def noFilter : FilterOptions := ⟨0, false, []⟩

/-- The scenario dump run: FASTQ, single-threaded, interleaved (one sink,
hence one chunk buffer), no filtering. -/
def scenarioRun : Except String (ProcessStatistics × List (List Nat)) :=
  processRange noFilter .Fastq 1 scenarioArchive

/-- The interleaved output byte stream of the scenario run. -/
def scenarioOut : List Nat :=
  match scenarioRun with
  | .ok (_, buffers) => buffers.getD 0 []
  | .error _ => []

/-- The merged statistics of the scenario run. -/
def scenarioStats : ProcessStatistics :=
  match scenarioRun with
  | .ok (st, _) => st
  | .error _ => statsDefault

/-- Every entry produced by `decDigitsAux` is a decimal digit. -/
theorem decDigitsAux_lt (fuel n : Nat) : ∀ d ∈ decDigitsAux fuel n, d < 10 := by
  induction fuel generalizing n with
  | zero => intro d hd; simp [decDigitsAux] at hd
  | succ fuel ih =>
    intro d hd
    by_cases h : n < 10
    · simp [decDigitsAux, h] at hd; omega
    · simp [decDigitsAux, h] at hd
      rcases hd with hd | hd
      · exact ih _ d hd
      · subst hd; exact Nat.mod_lt _ (by omega)

/-- The ASCII decimal rendering of a number never contains an LF byte. -/
theorem lf_not_mem_asciiDec (n : Nat) : lfByte ∉ asciiDec n := by
  intro h
  simp only [asciiDec, List.mem_map] at h
  obtain ⟨d, hd, hEq⟩ := h
  have := decDigitsAux_lt (n + 1) n d hd
  simp only [lfByte] at hEq
  omega

/-- C1: `write_fastq` appends exactly four LF-terminated lines — the
`@rid.sid` header, the sequence verbatim, a lone `+`, and the quality
verbatim — and the 3-spot × 2-segment interleaved single-threaded FASTQ
scenario yields 4 × 3 × 2 = 24 lines, starting with `@1.0`, ending in a
newline, with 6 records written. -/
theorem c1_fastq_record_and_scenario (rid sid : Nat) (tyb : Bool) (sq ql : List Nat)
    (hs : lfByte ∉ sq) (hq : lfByte ∉ ql) :
    write_fastq ⟨rid, sid, tyb, sq, ql⟩ =
      joinLinesLF [[atByte] ++ asciiDec rid ++ [dotByte] ++ asciiDec sid, sq, [plusByte], ql]
    ∧ (write_fastq ⟨rid, sid, tyb, sq, ql⟩).count lfByte = 4
    ∧ scenarioOut.count lfByte = 4 * 3 * 2
    ∧ scenarioOut.takeWhile (fun b => b ≠ lfByte) = [atByte, 49, dotByte, 48]
    ∧ scenarioOut.getLast? = some lfByte
    ∧ scenarioStats.num_reads = 6 := by
  refine ⟨?_, ?_, by decide, by decide, by decide, by decide⟩
  · simp [write_fastq, joinLinesLF]
  · have h1 : List.count lfByte (asciiDec rid) = 0 :=
      List.count_eq_zero.mpr (lf_not_mem_asciiDec rid)
    have h2 : List.count lfByte (asciiDec sid) = 0 :=
      List.count_eq_zero.mpr (lf_not_mem_asciiDec sid)
    have h3 : List.count lfByte sq = 0 := List.count_eq_zero.mpr hs
    have h4 : List.count lfByte ql = 0 := List.count_eq_zero.mpr hq
    simp only [lfByte] at h1 h2 h3 h4
    simp [write_fastq, List.count_append, h1, h2, h3, h4, lfByte, atByte, dotByte, plusByte]

/-- Witness for C1 at a concrete LF-free segment. -/
theorem c1_fastq_record_and_scenario_witness :
    write_fastq ⟨7, 2, false, [65, 67], [73, 74]⟩ =
      joinLinesLF [[atByte] ++ asciiDec 7 ++ [dotByte] ++ asciiDec 2,
        [65, 67], [plusByte], [73, 74]] :=
  (c1_fastq_record_and_scenario 7 2 false [65, 67] [73, 74]
    (by decide) (by decide)).1

/-- C10: `write_segment_to_buffer_set` never indexes out of bounds — with a
single buffer everything goes to index 0 regardless of sid; with several
buffers an out-of-range sid is rejected with the exact source error message
and no buffer is touched, and an in-range sid is appended to buffer `sid`. -/
theorem c10_write_segment_bounds (buffers : List (List Nat)) (s : Segment)
    (format : OutputFormat) :
    (buffers.length = 1 →
      write_segment_to_buffer_set buffers s format =
        .ok (buffers.set 0 (buffers.getD 0 [] ++ encodeSegment format s)))
    ∧ (1 < buffers.length → buffers.length ≤ s.sid →
      write_segment_to_buffer_set buffers s format =
        .error ("Provided Segment ID: " ++ toString s.sid
          ++ " is above the expected 4-segment counts"))
    ∧ (1 < buffers.length → s.sid < buffers.length →
      write_segment_to_buffer_set buffers s format =
        .ok (buffers.set s.sid (buffers.getD s.sid [] ++ encodeSegment format s))) := by
  refine ⟨fun h1 => ?_, fun h1 h2 => ?_, fun h1 h2 => ?_⟩
  · simp [write_segment_to_buffer_set, h1]
  · rw [write_segment_to_buffer_set, if_neg (by omega), if_pos (by omega)]
  · rw [write_segment_to_buffer_set, if_neg (by omega), if_neg (by omega)]

/-- Witness for C10: one interleaved write, one rejected out-of-range sid,
one split in-range write, each at concrete inputs. -/
theorem c10_write_segment_bounds_witness :
    write_segment_to_buffer_set [[]] ⟨1, 5, false, [65], [73]⟩ .Fastq =
      .ok [encodeSegment .Fastq ⟨1, 5, false, [65], [73]⟩]
    ∧ write_segment_to_buffer_set [[], [], [], []] ⟨1, 5, false, [65], [73]⟩ .Fastq =
      .error "Provided Segment ID: 5 is above the expected 4-segment counts"
    ∧ write_segment_to_buffer_set [[], [], [], []] ⟨1, 2, false, [65], [73]⟩ .Fastq =
      .ok [[], [], encodeSegment .Fastq ⟨1, 2, false, [65], [73]⟩, []] := by
  refine ⟨?_, ?_, ?_⟩
  · have h := (c10_write_segment_bounds [[]] ⟨1, 5, false, [65], [73]⟩ .Fastq).1
      (by decide)
    simpa using h
  · have h := (c10_write_segment_bounds [[], [], [], []] ⟨1, 5, false, [65], [73]⟩
      .Fastq).2.1 (by decide) (by decide)
    simpa using h
  · have h := (c10_write_segment_bounds [[], [], [], []] ⟨1, 2, false, [65], [73]⟩
      .Fastq).2.2 (by decide) (by decide)
    simpa using h

/-- C6 counterexample: `READ_TYPE = 2` has its low bit clear, so per the claim
it would be Technical and dropped under `skip_technical`; the code of
`process_range` in `src/fastq_dump.rs` only drops `READ_TYPE = 0` and writes
this segment. -/
theorem c6_low_bit_counterexample :
    2 % 2 = 0
    ∧ classifySegmentFD true 0 2 5 = .written
    ∧ classifySegmentFD true 0 2 5 ≠ .droppedType := by
  decide

/-- C6 amended: `process_range` drops a segment as technical exactly when
`skip_technical` is set and its `READ_TYPE` value equals 0 (any non-zero
value, low bit set or clear, is treated as biological). -/
theorem c6_amended_technical_rule (skip : Bool) (minLen rt len : Nat) :
    classifySegmentFD skip minLen rt len = .droppedType ↔ skip = true ∧ rt = 0 := by
  rcases skip with _ | _
  · simp [classifySegmentFD]
    split <;> simp
  · by_cases h : rt = 0
    · simp [classifySegmentFD, h]
    · simp [classifySegmentFD, h]
      split <;> simp

/-- C9: in paired recode mode, a spot carrying only sid 0 (no segment with
the extended sid 1) makes the worker body panic through `Option::unwrap`
rather than return a `SchemaError` value. -/
theorem c9_missing_segment_panics :
    recode_spot_paired [⟨1, 0, false, [65, 67], [73, 73]⟩] 0 1 =
      .error (.panicked "called Option::unwrap on a None value")
    ∧ isSchemaFailure (recode_spot_paired [⟨1, 0, false, [65, 67], [73, 73]⟩] 0 1)
      = false := by
  exact ⟨rfl, rfl⟩

/-- `(List.replicate k 0).getD i 0 = 0`. -/
theorem getD_replicate_zero (k i : Nat) : (List.replicate k (0:Nat)).getD i 0 = 0 := by
  rw [List.getD_eq_getElem?_getD, List.getElem?_replicate]
  split <;> rfl

/-- Right-padding with zeros never changes a default-0 lookup. -/
theorem getD_pad_zero (v : List Nat) (k i : Nat) :
    (v ++ List.replicate k 0).getD i 0 = v.getD i 0 := by
  rcases Nat.lt_or_ge i v.length with h | h
  · exact List.getD_append _ _ _ _ h
  · rw [List.getD_append_right _ _ _ _ h, List.getD_eq_default _ _ h, getD_replicate_zero]

/-- Pointwise reading of a zipped sum within bounds. -/
theorem getD_zipWith_add (x y : List Nat) (i : Nat) (hx : i < x.length)
    (hy : i < y.length) :
    (List.zipWith (fun a b => a + b) x y).getD i 0 = x.getD i 0 + y.getD i 0 := by
  induction x generalizing y i with
  | nil => simp at hx
  | cons a as ih =>
    cases y with
    | nil => simp at hy
    | cons b bs =>
      cases i with
      | zero => simp
      | succ n =>
        simp only [List.zipWith_cons_cons, List.getD_cons_succ]
        exact ih bs n (by simpa using hx) (by simpa using hy)

/-- The summed vector always has the length of the right operand. -/
theorem vec_add_length (a b : List Nat) : (vec_add a b).length = b.length := by
  rw [vec_add]
  split <;> simp [List.length_zipWith] <;> omega

/-- Within the right operand's length, `vec_add` sums pointwise (reading a
missing left entry as 0). -/
theorem vec_add_getD (a b : List Nat) (i : Nat) (h : i < b.length) :
    (vec_add a b).getD i 0 = a.getD i 0 + b.getD i 0 := by
  rw [vec_add]
  split
  · case isTrue hlt =>
    rw [getD_zipWith_add _ _ _ (by simp [List.length_replicate]; omega) h, getD_pad_zero]
  · case isFalse hge =>
    rw [getD_zipWith_add _ _ _ (by omega) h]

/-- Pointwise addition of lists is associative (all operands truncate alike). -/
theorem zipWith_add_assoc (x y z : List Nat) :
    List.zipWith (fun a b => a + b) (List.zipWith (fun a b => a + b) x y) z
      = List.zipWith (fun a b => a + b) x (List.zipWith (fun a b => a + b) y z) := by
  induction x generalizing y z with
  | nil => simp
  | cons a as ih =>
    cases y with
    | nil => simp
    | cons b bs =>
      cases z with
      | nil => simp
      | cons c cs => simp [ih, Nat.add_assoc]

/-- When the left operand is at least as long, `vec_add` is a plain `zipWith`. -/
theorem vec_add_eq_zipWith (a b : List Nat) (h : ¬ a.length < b.length) :
    vec_add a b = List.zipWith (fun x y => x + y) a b := by
  simp [vec_add, h]

/-- Pointwise sum with a matching all-zero right operand is the identity. -/
theorem zipWith_add_zero_right (a : List Nat) :
    List.zipWith (fun x y => x + y) a (List.replicate a.length 0) = a := by
  induction a with
  | nil => rfl
  | cons x xs ih => simp [List.replicate_succ, ih]

/-- Pointwise sum with a matching all-zero left operand is the identity. -/
theorem zipWith_add_zero_left (a : List Nat) :
    List.zipWith (fun x y => x + y) (List.replicate a.length 0) a = a := by
  induction a with
  | nil => rfl
  | cons x xs ih => simp [List.replicate_succ, ih]

/-- `vec_add` is associative on equal-length vectors. -/
theorem vec_add_assoc_of_len (a b c : List Nat) (hab : a.length = b.length)
    (hbc : b.length = c.length) :
    vec_add (vec_add a b) c = vec_add a (vec_add b c) := by
  have h1 : (List.zipWith (fun x y => x + y) a b).length = c.length := by
    simp [List.length_zipWith]; omega
  have h2 : (List.zipWith (fun x y => x + y) b c).length = c.length := by
    simp [List.length_zipWith]; omega
  rw [vec_add_eq_zipWith a b (by omega), vec_add_eq_zipWith b c (by omega),
    vec_add_eq_zipWith _ c (by omega), vec_add_eq_zipWith a _ (by omega),
    zipWith_add_assoc]

/-- `vec_add` with a matching all-zero right operand is the identity. -/
theorem vec_add_zero_right (v : List Nat) (n : Nat) (h : v.length = n) :
    vec_add v (List.replicate n 0) = v := by
  subst h
  rw [vec_add_eq_zipWith _ _ (by simp)]
  exact zipWith_add_zero_right v

/-- `vec_add` with a matching all-zero left operand is the identity. -/
theorem vec_add_zero_left (v : List Nat) (n : Nat) (h : v.length = n) :
    vec_add (List.replicate n 0) v = v := by
  subst h
  rw [vec_add_eq_zipWith _ _ (by simp)]
  exact zipWith_add_zero_left v

/-- The all-zero statistics value with per-segment vectors of length `n`. -/
def zeroStats (n : Nat) : ProcessStatistics :=
  ⟨0, 0, List.replicate n 0, List.replicate n 0, List.replicate n 0⟩

/-- All three per-segment vectors of `a` have length `n`. -/
def sameLens (a : ProcessStatistics) (n : Nat) : Prop :=
  a.reads_per_segment.length = n ∧ a.filter_size.length = n ∧ a.filter_type.length = n

/-- C4 counterexample: merging a statistics value whose vectors are longer
than the default length 4 with the all-zero default truncates it — the result
has vector length 4, not `max 5 4`, and the all-zero default is not a
right identity. -/
theorem c4_merge_counterexample :
    statsAdd ⟨10, 20, [1, 2, 3, 4, 5], [0, 0, 0, 0, 0], [0, 0, 0, 0, 0]⟩ statsDefault
      ≠ ⟨10, 20, [1, 2, 3, 4, 5], [0, 0, 0, 0, 0], [0, 0, 0, 0, 0]⟩
    ∧ (statsAdd ⟨10, 20, [1, 2, 3, 4, 5], [0, 0, 0, 0, 0], [0, 0, 0, 0, 0]⟩
        statsDefault).reads_per_segment.length ≠ max 5 4
    ∧ statsDefault.reads_per_segment = [0, 0, 0, 0]
    ∧ statsDefault.num_spots = 0 ∧ statsDefault.num_reads = 0 := by
  decide

/-- C4 amended: `statsAdd` sums the scalar counters, and each per-segment
vector of the merge has the length of the RIGHT operand's vector, with entry
`i` equal to `a[i] + b[i]` (a missing left entry reads as 0); entries of a
longer left operand beyond the right operand's length are dropped.
Associativity and the all-zero identity hold on statistics whose vectors all
share one length. -/
theorem c4_merge_amended (a b c : ProcessStatistics) (n : Nat) :
    ((statsAdd a b).num_spots = a.num_spots + b.num_spots
      ∧ (statsAdd a b).num_reads = a.num_reads + b.num_reads)
    ∧ ((statsAdd a b).reads_per_segment.length = b.reads_per_segment.length
      ∧ ∀ i, i < b.reads_per_segment.length →
          (statsAdd a b).reads_per_segment.getD i 0
            = a.reads_per_segment.getD i 0 + b.reads_per_segment.getD i 0)
    ∧ ((statsAdd a b).filter_size.length = b.filter_size.length
      ∧ ∀ i, i < b.filter_size.length →
          (statsAdd a b).filter_size.getD i 0
            = a.filter_size.getD i 0 + b.filter_size.getD i 0)
    ∧ ((statsAdd a b).filter_type.length = b.filter_type.length
      ∧ ∀ i, i < b.filter_type.length →
          (statsAdd a b).filter_type.getD i 0
            = a.filter_type.getD i 0 + b.filter_type.getD i 0)
    ∧ (sameLens a n → sameLens b n → sameLens c n →
        statsAdd (statsAdd a b) c = statsAdd a (statsAdd b c))
    ∧ (sameLens a n → statsAdd a (zeroStats n) = a ∧ statsAdd (zeroStats n) a = a) := by
  refine ⟨⟨rfl, rfl⟩,
    ⟨vec_add_length _ _, fun i hi => vec_add_getD _ _ i hi⟩,
    ⟨vec_add_length _ _, fun i hi => vec_add_getD _ _ i hi⟩,
    ⟨vec_add_length _ _, fun i hi => vec_add_getD _ _ i hi⟩,
    fun ha hb hc => ?_, fun ha => ?_⟩
  · obtain ⟨ha1, ha2, ha3⟩ := ha
    obtain ⟨hb1, hb2, hb3⟩ := hb
    obtain ⟨hc1, hc2, hc3⟩ := hc
    have r1 := vec_add_assoc_of_len a.reads_per_segment b.reads_per_segment
      c.reads_per_segment (by omega) (by omega)
    have r2 := vec_add_assoc_of_len a.filter_size b.filter_size
      c.filter_size (by omega) (by omega)
    have r3 := vec_add_assoc_of_len a.filter_type b.filter_type
      c.filter_type (by omega) (by omega)
    simp [statsAdd, Nat.add_assoc, r1, r2, r3]
  · obtain ⟨ha1, ha2, ha3⟩ := ha
    cases a with
    | mk ns nr r fs ft =>
      simp only at ha1 ha2 ha3
      constructor
      · simp [statsAdd, zeroStats, vec_add_zero_right _ _ ha1,
          vec_add_zero_right _ _ ha2, vec_add_zero_right _ _ ha3]
      · simp [statsAdd, zeroStats, vec_add_zero_left _ _ ha1,
          vec_add_zero_left _ _ ha2, vec_add_zero_left _ _ ha3]

/-- Witness for C4 amended at concrete statistics values. -/
theorem c4_merge_amended_witness :
    (statsAdd ⟨1, 2, [5, 6, 7, 8], [1, 1, 1, 1], [2, 2, 2, 2]⟩
        statsDefault).reads_per_segment.getD 2 0 = 7
    ∧ statsAdd (statsAdd statsDefault statsDefault) statsDefault
        = statsAdd statsDefault (statsAdd statsDefault statsDefault)
    ∧ statsAdd statsDefault (zeroStats 4) = statsDefault := by
  refine ⟨?_, ?_, ?_⟩
  · have h := (c4_merge_amended ⟨1, 2, [5, 6, 7, 8], [1, 1, 1, 1], [2, 2, 2, 2]⟩
      statsDefault statsDefault 4).2.1.2 2 (by decide)
    simpa using h
  · exact (c4_merge_amended statsDefault statsDefault statsDefault 4).2.2.2.2.1
      (by exact ⟨rfl, rfl, rfl⟩) (by exact ⟨rfl, rfl, rfl⟩) (by exact ⟨rfl, rfl, rfl⟩)
  · exact ((c4_merge_amended statsDefault statsDefault statsDefault 4).2.2.2.2.2
      (by exact ⟨rfl, rfl, rfl⟩)).1

/-- Reading the cleanup pass at position `i` gives the per-sid body applied
to `reads_per_segment[i]`. -/
theorem cleanup_actions_getD (reads : List Nat) (inc : List Nat) (np ke : Bool)
    (i : Nat) (h : i < reads.length) :
    (cleanup_actions reads inc np ke).getD i .kept
      = cleanup_action inc np ke i (reads.getD i 0) := by
  rw [cleanup_actions, List.getD_eq_getElem?_getD, List.getElem?_map,
    List.getElem?_enum, List.getElem?_eq_getElem h]
  simp [List.getD_eq_getElem?_getD, List.getElem?_eq_getElem h]

/-- C7 amended: after a split run, for a sid in the include-set (or any sid
when it is empty) a zero `written` count leads to removal when `keep_empty`
is false and to a warning (file kept) when it is true; a named-pipe sink is
removed (or, when `keep_empty` is set, only warned about) regardless of its
count; excluded sids are never touched; and with `keep_empty = false` every
in-scope sid with `written = 0` is removed, so no empty sink file remains. -/
theorem c7_cleanup_amended (includeSet : List Nat) (np ke : Bool) (sid count : Nat)
    (reads : List Nat) :
    ((includeSet = [] ∨ sid ∈ includeSet) → count = 0 → ke = false →
        cleanup_action includeSet np ke sid count = .removed)
    ∧ ((includeSet = [] ∨ sid ∈ includeSet) → count = 0 → ke = true →
        cleanup_action includeSet np ke sid count = .warned)
    ∧ ((includeSet = [] ∨ sid ∈ includeSet) → np = true →
        cleanup_action includeSet np ke sid count
          = if ke then .warned else .removed)
    ∧ (includeSet ≠ [] → sid ∉ includeSet →
        cleanup_action includeSet np ke sid count = .kept)
    ∧ (∀ i, i < reads.length → (includeSet = [] ∨ i ∈ includeSet) →
        reads.getD i 0 = 0 →
        (cleanup_actions reads includeSet np false).getD i .kept = .removed) := by
  refine ⟨fun hin hc hke => ?_, fun hin hc hke => ?_, fun hin hnp => ?_,
    fun hne hnotin => ?_, fun i hi hin hz => ?_⟩
  · have hx : ¬(includeSet ≠ [] ∧ sid ∉ includeSet) := by tauto
    subst hke
    simp [cleanup_action, hx, hc]
  · have hx : ¬(includeSet ≠ [] ∧ sid ∉ includeSet) := by tauto
    subst hke
    simp [cleanup_action, hx, hc]
  · have hx : ¬(includeSet ≠ [] ∧ sid ∉ includeSet) := by tauto
    subst hnp
    simp [cleanup_action, hx]
  · simp [cleanup_action, hne, hnotin]
  · have hx : ¬(includeSet ≠ [] ∧ i ∉ includeSet) := by tauto
    rw [cleanup_actions_getD _ _ _ _ _ hi, hz]
    simp [cleanup_action, hx]

/-- C7 counterexample: with `named_pipes = true` and `keep_empty = true` the
cleanup warns and keeps the pipe — it is not removed, contradicting
"named-pipe sinks are removed after use regardless of written[sid]". -/
theorem c7_cleanup_counterexample :
    cleanup_action [] true true 0 5 = .warned
    ∧ cleanup_action [] true true 0 5 ≠ .removed
    ∧ cleanup_action [] true true 0 0 ≠ .removed := by
  decide

/-- Witness for C7 amended at concrete cleanup inputs. -/
theorem c7_cleanup_amended_witness :
    cleanup_action [] false false 0 0 = .removed
    ∧ cleanup_action [0, 1] false true 1 0 = .warned
    ∧ cleanup_action [] true false 2 7 = .removed
    ∧ cleanup_action [1] false false 0 0 = .kept
    ∧ (cleanup_actions [0, 3, 0, 2] [] false false).getD 2 .kept = .removed := by
  refine ⟨?_, ?_, ?_, ?_, ?_⟩
  · exact (c7_cleanup_amended [] false false 0 0 []).1 (Or.inl rfl) rfl rfl
  · exact (c7_cleanup_amended [0, 1] false true 1 0 []).2.1
      (Or.inr (by decide)) rfl rfl
  · have h := (c7_cleanup_amended [] true false 2 7 []).2.2.1 (Or.inl rfl) rfl
    simpa using h
  · exact (c7_cleanup_amended [1] false false 0 0 []).2.2.2.1
      (by decide) (by decide)
  · exact (c7_cleanup_amended [] false false 0 0 [0, 3, 0, 2]).2.2.2.2 2
      (by decide) (Or.inl rfl) (by decide)

/-- Incrementing entry `j` adds 1 at `j` and leaves every other default-0
lookup unchanged. -/
theorem bumpAt_getD (v : List Nat) (j i : Nat) :
    (bumpAt v j).getD i 0 = v.getD i 0 + if i = j then 1 else 0 := by
  have hlen : j < (v ++ List.replicate (j + 1 - v.length) 0).length := by
    simp [List.length_append, List.length_replicate]
    omega
  rw [bumpAt]
  simp only [growTo]
  rw [List.getD_eq_getElem?_getD, List.getElem?_set]
  by_cases h : i = j
  · subst h
    have hc : i < v.length + (i + 1 - v.length) := by omega
    simp [hc, ← List.getD_eq_getElem?_getD, getD_pad_zero]
  · have h2 : ¬ (j = i) := fun hh => h hh.symm
    simp [h2, h, ← List.getD_eq_getElem?_getD, getD_pad_zero]

/-- A sid outside a non-empty include-set is skipped silently. -/
theorem filterSegment_skipped (opts : FilterOptions) (s : Segment)
    (h1 : opts.includeSet ≠ []) (h2 : s.sid ∉ opts.includeSet) :
    filterSegment opts s = .skippedInclude := by
  simp [filterSegment, h1, h2]

/-- An included technical segment is dropped by type under `skip_technical`. -/
theorem filterSegment_type (opts : FilterOptions) (s : Segment)
    (hin : opts.includeSet = [] ∨ s.sid ∈ opts.includeSet)
    (ht : opts.skip_technical = true) (hs : s.isTechnical = true) :
    filterSegment opts s = .droppedType := by
  have hx : ¬(opts.includeSet ≠ [] ∧ s.sid ∉ opts.includeSet) := by tauto
  simp [filterSegment, hx, ht, hs]

/-- An included, type-passing segment shorter than `min_read_len` is dropped
by size. -/
theorem filterSegment_size (opts : FilterOptions) (s : Segment)
    (hin : opts.includeSet = [] ∨ s.sid ∈ opts.includeSet)
    (ht : ¬(opts.skip_technical = true ∧ s.isTechnical = true))
    (hl : s.seqBytes.length < opts.min_read_len) :
    filterSegment opts s = .droppedSize := by
  have hx : ¬(opts.includeSet ≠ [] ∧ s.sid ∉ opts.includeSet) := by tauto
  simp only [filterSegment, if_neg hx, if_neg ht, if_pos hl]

/-- A segment passing all three checks is accepted. -/
theorem filterSegment_accepted (opts : FilterOptions) (s : Segment)
    (hin : opts.includeSet = [] ∨ s.sid ∈ opts.includeSet)
    (ht : ¬(opts.skip_technical = true ∧ s.isTechnical = true))
    (hl : opts.min_read_len ≤ s.seqBytes.length) :
    filterSegment opts s = .accepted := by
  have hx : ¬(opts.includeSet ≠ [] ∧ s.sid ∉ opts.includeSet) := by tauto
  have hl2 : ¬ (s.seqBytes.length < opts.min_read_len) := by omega
  simp only [filterSegment, if_neg hx, if_neg ht, if_neg hl2]

/-- C3: the per-segment filter applies include-set, technical and length
checks in that order with exactly the stated counter effects: an excluded
sid changes nothing; a technical drop bumps only `filter_type[sid]` (so a
technical segment that is also short bumps only `filter_type`); a length
drop bumps only `filter_size[sid]`; an accepted segment is written with
`reads[sid]` bumped; and with `min_len = 0` a zero-length segment is
accepted. -/
theorem c3_filter_order (opts : FilterOptions) (format : OutputFormat)
    (st : ProcessStatistics) (buffers : List (List Nat)) (s : Segment) :
    (opts.includeSet ≠ [] → s.sid ∉ opts.includeSet →
      processSegment opts format (st, buffers) s = .ok (st, buffers))
    ∧ ((opts.includeSet = [] ∨ s.sid ∈ opts.includeSet) →
        opts.skip_technical = true → s.isTechnical = true →
        processSegment opts format (st, buffers) s
          = .ok (inc_filter_type st s.sid, buffers)
        ∧ (inc_filter_type st s.sid).filter_type.getD s.sid 0
            = st.filter_type.getD s.sid 0 + 1
        ∧ (inc_filter_type st s.sid).filter_size = st.filter_size
        ∧ (inc_filter_type st s.sid).reads_per_segment = st.reads_per_segment)
    ∧ ((opts.includeSet = [] ∨ s.sid ∈ opts.includeSet) →
        ¬(opts.skip_technical = true ∧ s.isTechnical = true) →
        s.seqBytes.length < opts.min_read_len →
        processSegment opts format (st, buffers) s
          = .ok (inc_filter_size st s.sid, buffers)
        ∧ (inc_filter_size st s.sid).filter_size.getD s.sid 0
            = st.filter_size.getD s.sid 0 + 1
        ∧ (inc_filter_size st s.sid).filter_type = st.filter_type
        ∧ (inc_filter_size st s.sid).reads_per_segment = st.reads_per_segment)
    ∧ ((opts.includeSet = [] ∨ s.sid ∈ opts.includeSet) →
        ¬(opts.skip_technical = true ∧ s.isTechnical = true) →
        opts.min_read_len ≤ s.seqBytes.length →
        filterSegment opts s = .accepted
        ∧ processSegment opts format (st, buffers) s
          = (write_segment_to_buffer_set buffers s format).map
              (fun bufs => (inc_reads st s.sid, bufs))
        ∧ (inc_reads st s.sid).reads_per_segment.getD s.sid 0
            = st.reads_per_segment.getD s.sid 0 + 1)
    ∧ (opts.min_read_len = 0 → (opts.includeSet = [] ∨ s.sid ∈ opts.includeSet) →
        ¬(opts.skip_technical = true ∧ s.isTechnical = true) →
        s.seqBytes = [] → filterSegment opts s = .accepted) := by
  refine ⟨fun h1 h2 => ?_, fun hin ht hs => ⟨?_, ?_, rfl, rfl⟩,
    fun hin ht hl => ⟨?_, ?_, rfl, rfl⟩, fun hin ht hl => ⟨?_, ?_, ?_⟩,
    fun hm hin ht hz => ?_⟩
  · simp [processSegment, filterSegment_skipped opts s h1 h2]
  · simp [processSegment, filterSegment_type opts s hin ht hs]
  · simpa using bumpAt_getD st.filter_type s.sid s.sid
  · simp [processSegment, filterSegment_size opts s hin ht hl]
  · simpa using bumpAt_getD st.filter_size s.sid s.sid
  · exact filterSegment_accepted opts s hin ht hl
  · rw [processSegment, filterSegment_accepted opts s hin ht hl]
    cases hw : write_segment_to_buffer_set buffers s format <;>
      simp [Except.map, hw]
  · simpa using bumpAt_getD st.reads_per_segment s.sid s.sid
  · exact filterSegment_accepted opts s hin ht (by simp [hz, hm])

/-- Witness for C3 at concrete filter configurations. -/
theorem c3_filter_order_witness :
    processSegment ⟨0, false, [1]⟩ .Fastq (statsDefault, [[]])
      ⟨1, 0, false, [65], [73]⟩ = .ok (statsDefault, [[]])
    ∧ processSegment ⟨0, true, []⟩ .Fastq (statsDefault, [[]])
      ⟨1, 0, true, [65], [73]⟩ = .ok (inc_filter_type statsDefault 0, [[]])
    ∧ processSegment ⟨5, false, []⟩ .Fastq (statsDefault, [[]])
      ⟨1, 1, false, [65], [73]⟩ = .ok (inc_filter_size statsDefault 1, [[]])
    ∧ filterSegment ⟨1, false, []⟩ ⟨1, 0, false, [65, 67], [73, 74]⟩ = .accepted
    ∧ filterSegment ⟨0, false, []⟩ ⟨1, 0, false, [], []⟩ = .accepted :=
  ⟨(c3_filter_order ⟨0, false, [1]⟩ .Fastq statsDefault [[]]
      ⟨1, 0, false, [65], [73]⟩).1 (by decide) (by decide),
   ((c3_filter_order ⟨0, true, []⟩ .Fastq statsDefault [[]]
      ⟨1, 0, true, [65], [73]⟩).2.1 (Or.inl rfl) rfl rfl).1,
   ((c3_filter_order ⟨5, false, []⟩ .Fastq statsDefault [[]]
      ⟨1, 1, false, [65], [73]⟩).2.2.1 (Or.inl rfl) (by simp) (by decide)).1,
   ((c3_filter_order ⟨1, false, []⟩ .Fastq statsDefault [[]]
      ⟨1, 0, false, [65, 67], [73, 74]⟩).2.2.2.1 (Or.inl rfl) (by simp)
      (by decide)).1,
   (c3_filter_order ⟨0, false, []⟩ .Fastq statsDefault [[]]
      ⟨1, 0, false, [], []⟩).2.2.2.2 rfl (Or.inl rfl) (by simp) rfl⟩

/-- C8: if the sampled mean length of the primary sid (or of the extended sid,
when paired) is not an integer, `recode_to_binseq` fails with exactly the
source's variance message and the output file is never created (the bailout
precedes `File::create`, leaving the filesystem unchanged). -/
theorem c8_binseq_variance (archive : List (List Nat)) (p e : Nat) :
    (fractIsZero (sidMeanLength (archive.take 100) p) = false →
      recode_to_binseq archive p none
        = ⟨false, .error (binseqVarianceMsg p)⟩
      ∧ recode_to_binseq archive p (some e)
        = ⟨false, .error (binseqVarianceMsg p)⟩)
    ∧ (fractIsZero (sidMeanLength (archive.take 100) p) = true →
       fractIsZero (sidMeanLength (archive.take 100) e) = false →
      recode_to_binseq archive p (some e)
        = ⟨false, .error (binseqVarianceMsg e)⟩) := by
  constructor
  · intro h
    constructor <;> simp [recode_to_binseq, h]
  · intro hp he
    simp [recode_to_binseq, hp, he]

/-- Witness for C8: a primary sid with sampled mean 49.6 fails (unpaired run),
and a paired run whose primary mean is 50 but whose extended mean is 49.6
fails on the extended sid; neither creates the output file. -/
theorem c8_binseq_variance_witness :
    recode_to_binseq [[49], [50], [50], [50], [49]] 0 none
      = ⟨false, .error (binseqVarianceMsg 0)⟩
    ∧ recode_to_binseq [[50, 49], [50, 50], [50, 50], [50, 50], [50, 49]] 0 (some 1)
      = ⟨false, .error (binseqVarianceMsg 1)⟩ := by
  have hp : fractIsZero (sidMeanLength (([[49], [50], [50], [50], [49]] :
      List (List Nat)).take 100) 0) = false := by
    have ht : (([[49], [50], [50], [50], [49]] : List (List Nat)).take 100)
        = [[49], [50], [50], [50], [49]] := rfl
    have hs : segmentLengthSamples [[49], [50], [50], [50], [49]] 0
        = [49, 50, 50, 50, 49] := rfl
    rw [ht, sidMeanLength, hs, meanLen]
    simp only [fractIsZero]
    norm_num
  have hq : fractIsZero (sidMeanLength (([[50, 49], [50, 50], [50, 50], [50, 50],
      [50, 49]] : List (List Nat)).take 100) 0) = true := by
    have ht : (([[50, 49], [50, 50], [50, 50], [50, 50], [50, 49]] :
        List (List Nat)).take 100)
        = [[50, 49], [50, 50], [50, 50], [50, 50], [50, 49]] := rfl
    have hs : segmentLengthSamples [[50, 49], [50, 50], [50, 50], [50, 50],
        [50, 49]] 0 = [50, 50, 50, 50, 50] := rfl
    rw [ht, sidMeanLength, hs, meanLen]
    simp only [fractIsZero]
    norm_num
  have hr : fractIsZero (sidMeanLength (([[50, 49], [50, 50], [50, 50], [50, 50],
      [50, 49]] : List (List Nat)).take 100) 1) = false := by
    have ht : (([[50, 49], [50, 50], [50, 50], [50, 50], [50, 49]] :
        List (List Nat)).take 100)
        = [[50, 49], [50, 50], [50, 50], [50, 50], [50, 49]] := rfl
    have hs : segmentLengthSamples [[50, 49], [50, 50], [50, 50], [50, 50],
        [50, 49]] 1 = [49, 50, 50, 50, 49] := rfl
    rw [ht, sidMeanLength, hs, meanLen]
    simp only [fractIsZero]
    norm_num
  exact ⟨((c8_binseq_variance [[49], [50], [50], [50], [49]] 0 0).1 hp).1,
    (c8_binseq_variance [[50, 49], [50, 50], [50, 50], [50, 50], [50, 49]] 0 1).2
      hq hr⟩

/-- C5: for `1 ≤ t ≤ N` the worker row partitioning produces `t` contiguous,
pairwise disjoint, 1-indexed inclusive ranges covering exactly `[1, N]`, the
last range absorbing the remainder `N % t`. -/
theorem c5_row_ranges (N t : Nat) (h1 : 1 ≤ t) (h2 : t ≤ N) :
    startRow N t 0 = 1
    ∧ stopRow N t (t - 1) = N
    ∧ (∀ i, i + 1 < t → stopRow N t i + 1 = startRow N t (i + 1))
    ∧ (∀ i, i < t → startRow N t i ≤ stopRow N t i)
    ∧ (∀ x, (1 ≤ x ∧ x ≤ N) ↔ ∃ i, i < t ∧ startRow N t i ≤ x ∧ x ≤ stopRow N t i)
    ∧ (∀ i j, i < t → j < t → i ≠ j →
        ∀ x, startRow N t i ≤ x → x ≤ stopRow N t i →
          ¬(startRow N t j ≤ x ∧ x ≤ stopRow N t j)) := by
  have hq : 1 ≤ N / t := (Nat.one_le_div_iff (by omega)).mpr h2
  have hNqr : t * (N / t) + N % t = N := Nat.div_add_mod N t
  have hqt : t * (N / t) = (N / t) * t := Nat.mul_comm t (N / t)
  have stop_last : stopRow N t (t - 1) = N := by
    rw [stopRow, if_pos rfl, startRow]
    have e1 : (t - 1) * (N / t) + N / t = t * (N / t) := by
      rw [← Nat.succ_mul, Nat.succ_eq_add_one, Nat.sub_add_cancel h1]
    omega
  have stop_mid : ∀ i, i < t - 1 → stopRow N t i = (i + 1) * (N / t) := by
    intro i hi
    rw [stopRow, if_neg (by omega), startRow]
    have e1 : (i + 1) * (N / t) = i * (N / t) + N / t := by ring
    omega
  have key : ∀ i j, i < j → j < t → stopRow N t i < startRow N t j := by
    intro i j hij hjt
    rw [stop_mid i (by omega), startRow]
    have e1 : (i + 1) * (N / t) ≤ j * (N / t) :=
      Nat.mul_le_mul_right (N / t) (by omega)
    omega
  refine ⟨by simp [startRow], stop_last, ?_, ?_, ?_, ?_⟩
  · intro i hi
    rw [stop_mid i (by omega), startRow]
  · intro i hi
    by_cases hc : i = t - 1
    · subst hc
      rw [stop_last, startRow]
      have e1 : (t - 1) * (N / t) + N / t = t * (N / t) := by
        rw [← Nat.succ_mul, Nat.succ_eq_add_one, Nat.sub_add_cancel h1]
      omega
    · rw [stop_mid i (by omega), startRow]
      have e1 : (i + 1) * (N / t) = i * (N / t) + N / t := by ring
      omega
  · intro x
    constructor
    · rintro ⟨hx1, hxN⟩
      have hdm : N / t * ((x - 1) / (N / t)) + (x - 1) % (N / t) = x - 1 :=
        Nat.div_add_mod _ _
      have hmlt : (x - 1) % (N / t) < N / t := Nat.mod_lt _ (by omega)
      by_cases hc : (x - 1) / (N / t) < t - 1
      · refine ⟨(x - 1) / (N / t), by omega, ?_, ?_⟩
        · rw [startRow]
          have e1 : (x - 1) / (N / t) * (N / t) = N / t * ((x - 1) / (N / t)) :=
            Nat.mul_comm _ _
          omega
        · rw [stop_mid _ hc]
          have e1 : ((x - 1) / (N / t) + 1) * (N / t)
              = (x - 1) / (N / t) * (N / t) + N / t := by ring
          have e2 : (x - 1) / (N / t) * (N / t) = N / t * ((x - 1) / (N / t)) :=
            Nat.mul_comm _ _
          omega
      · refine ⟨t - 1, by omega, ?_, ?_⟩
        · rw [startRow]
          have e1 : (t - 1) * (N / t) ≤ (x - 1) / (N / t) * (N / t) :=
            Nat.mul_le_mul_right (N / t) (by omega)
          have e2 : (x - 1) / (N / t) * (N / t) = N / t * ((x - 1) / (N / t)) :=
            Nat.mul_comm _ _
          omega
        · rw [stop_last]
          omega
    · rintro ⟨i, hi, hix, hxi⟩
      have hs1 : 1 ≤ startRow N t i := by rw [startRow]; omega
      constructor
      · omega
      · by_cases hc : i = t - 1
        · subst hc
          rw [stop_last] at hxi
          omega
        · rw [stop_mid i (by omega)] at hxi
          have e1 : (i + 1) * (N / t) ≤ t * (N / t) :=
            Nat.mul_le_mul_right (N / t) (by omega)
          omega
  · intro i j hi hj hij x hix hxi
    rintro ⟨hjx, hxj⟩
    rcases Nat.lt_or_ge i j with hlt | hge
    · have := key i j hlt hj
      omega
    · have hlt2 : j < i := by omega
      have := key j i hlt2 hi
      omega

/-- Witness for C5 at `N = 10`, `t = 3` (ranges `[1,3] [4,6] [7,10]`). -/
theorem c5_row_ranges_witness :
    startRow 10 3 0 = 1 ∧ stopRow 10 3 2 = 10 ∧ startRow 10 3 2 = 7 := by
  refine ⟨(c5_row_ranges 10 3 (by decide) (by decide)).1, ?_, by decide⟩
  have h := (c5_row_ranges 10 3 (by decide) (by decide)).2.1
  simpa using h

/-- With a single (interleaved) chunk buffer the write always succeeds. -/
theorem write_segment_single (buffers : List (List Nat)) (s : Segment)
    (format : OutputFormat) (h : buffers.length = 1) :
    write_segment_to_buffer_set buffers s format
      = .ok (buffers.set 0 (buffers.getD 0 [] ++ encodeSegment format s)) := by
  simp [write_segment_to_buffer_set, h]

/-- Unfolding one segment from a category count. -/
theorem catCount_cons (opts : FilterOptions) (c : FilterResult) (sid : Nat)
    (s : Segment) (rest : List Segment) :
    catCount opts c sid (s :: rest)
      = (if s.sid = sid ∧ filterSegment opts s = c then 1 else 0)
        + catCount opts c sid rest := by
  rw [catCount, catCount, List.filter_cons]
  by_cases h1 : s.sid = sid <;> by_cases h2 : filterSegment opts s = c <;>
    simp [h1, h2] <;> omega

/-- The category count of no segments is zero. -/
theorem catCount_nil (opts : FilterOptions) (c : FilterResult) (sid : Nat) :
    catCount opts c sid [] = 0 := rfl

/-- Every sid-matching segment falls into exactly one filter category. -/
theorem catCount_total (opts : FilterOptions) (sid : Nat) (segs : List Segment) :
    catCount opts .accepted sid segs + catCount opts .skippedInclude sid segs
      + catCount opts .droppedType sid segs + catCount opts .droppedSize sid segs
      = (segs.filter (fun s => s.sid == sid)).length := by
  induction segs with
  | nil => simp [catCount]
  | cons s rest ih =>
    rw [catCount_cons, catCount_cons, catCount_cons, catCount_cons,
      List.filter_cons]
    by_cases hsid : s.sid = sid
    · cases hf : filterSegment opts s <;> simp [hsid, hf] <;> omega
    · simp [hsid]
      omega

/-- Invariant of the inner segment loop (interleaved): it never fails, keeps
a single chunk buffer, leaves `num_spots` alone, and advances the `written`,
`filter_size` and `filter_type` counters at `sid` by the respective category
counts of the processed segments. -/
theorem processSegments_spec (opts : FilterOptions) (format : OutputFormat)
    (sid : Nat) (segs : List Segment) :
    ∀ (st : ProcessStatistics) (buffers : List (List Nat)),
    buffers.length = 1 →
    ∃ st' bufs', processSegments opts format (st, buffers) segs = .ok (st', bufs')
      ∧ bufs'.length = 1
      ∧ st'.num_spots = st.num_spots
      ∧ st'.reads_per_segment.getD sid 0
          = st.reads_per_segment.getD sid 0 + catCount opts .accepted sid segs
      ∧ st'.filter_size.getD sid 0
          = st.filter_size.getD sid 0 + catCount opts .droppedSize sid segs
      ∧ st'.filter_type.getD sid 0
          = st.filter_type.getD sid 0 + catCount opts .droppedType sid segs := by
  induction segs with
  | nil =>
    intro st buffers hbuf
    exact ⟨st, buffers, rfl, hbuf, rfl, by simp [catCount_nil],
      by simp [catCount_nil], by simp [catCount_nil]⟩
  | cons s rest ih =>
    intro st buffers hbuf
    cases hf : filterSegment opts s with
    | skippedInclude =>
      obtain ⟨st', bufs', hrun, hlen, hns, hr, hfs, hft⟩ := ih st buffers hbuf
      refine ⟨st', bufs', ?_, hlen, hns, ?_, ?_, ?_⟩
      · simp [processSegments, processSegment, hf, hrun]
      · rw [hr, catCount_cons]
        simp [hf]
      · rw [hfs, catCount_cons]
        simp [hf]
      · rw [hft, catCount_cons]
        simp [hf]
    | droppedType =>
      obtain ⟨st', bufs', hrun, hlen, hns, hr, hfs, hft⟩ :=
        ih (inc_filter_type st s.sid) buffers hbuf
      refine ⟨st', bufs', ?_, hlen, hns, ?_, ?_, ?_⟩
      · simp [processSegments, processSegment, hf, hrun]
      · rw [hr, catCount_cons]
        simp [hf, inc_filter_type]
      · rw [hfs, catCount_cons]
        simp [hf, inc_filter_type]
      · rw [hft, catCount_cons]
        simp only [inc_filter_type]
        rw [bumpAt_getD]
        by_cases hs : s.sid = sid
        · simp [hs, hf]
          omega
        · have hs2 : ¬ (sid = s.sid) := fun hh => hs hh.symm
          simp [hs, hs2, hf]
    | droppedSize =>
      obtain ⟨st', bufs', hrun, hlen, hns, hr, hfs, hft⟩ :=
        ih (inc_filter_size st s.sid) buffers hbuf
      refine ⟨st', bufs', ?_, hlen, hns, ?_, ?_, ?_⟩
      · simp [processSegments, processSegment, hf, hrun]
      · rw [hr, catCount_cons]
        simp [hf, inc_filter_size]
      · rw [hfs, catCount_cons]
        simp only [inc_filter_size]
        rw [bumpAt_getD]
        by_cases hs : s.sid = sid
        · simp [hs, hf]
          omega
        · have hs2 : ¬ (sid = s.sid) := fun hh => hs hh.symm
          simp [hs, hs2, hf]
      · rw [hft, catCount_cons]
        simp [hf, inc_filter_size]
    | accepted =>
      have hw := write_segment_single buffers s format hbuf
      have hblen : (buffers.set 0 (buffers.getD 0 []
          ++ encodeSegment format s)).length = 1 := by
        simp [List.length_set, hbuf]
      obtain ⟨st', bufs', hrun, hlen, hns, hr, hfs, hft⟩ :=
        ih (inc_reads st s.sid)
          (buffers.set 0 (buffers.getD 0 [] ++ encodeSegment format s)) hblen
      refine ⟨st', bufs', ?_, hlen, hns, ?_, ?_, ?_⟩
      · simp only [processSegments, processSegment, hf, hw]
        exact hrun
      · rw [hr, catCount_cons]
        simp only [inc_reads]
        rw [bumpAt_getD]
        by_cases hs : s.sid = sid
        · simp [hs, hf]
          omega
        · have hs2 : ¬ (sid = s.sid) := fun hh => hs hh.symm
          simp [hs, hs2, hf]
      · rw [hfs, catCount_cons]
        simp [hf, inc_reads]
      · rw [hft, catCount_cons]
        simp [hf, inc_reads]

/-- Invariant of the worker spot loop (interleaved): `num_spots` advances by
the number of spots and each counter at `sid` by the summed per-spot category
counts. -/
theorem processSpots_spec (opts : FilterOptions) (format : OutputFormat)
    (sid : Nat) (spots : List (List Segment)) :
    ∀ (st : ProcessStatistics) (buffers : List (List Nat)),
    buffers.length = 1 →
    ∃ st' bufs', processSpots opts format (st, buffers) spots = .ok (st', bufs')
      ∧ bufs'.length = 1
      ∧ st'.num_spots = st.num_spots + spots.length
      ∧ st'.reads_per_segment.getD sid 0
          = st.reads_per_segment.getD sid 0
            + (spots.map (catCount opts .accepted sid)).sum
      ∧ st'.filter_size.getD sid 0
          = st.filter_size.getD sid 0
            + (spots.map (catCount opts .droppedSize sid)).sum
      ∧ st'.filter_type.getD sid 0
          = st.filter_type.getD sid 0
            + (spots.map (catCount opts .droppedType sid)).sum := by
  induction spots with
  | nil =>
    intro st buffers hbuf
    exact ⟨st, buffers, rfl, hbuf, by simp, by simp, by simp, by simp⟩
  | cons spot rest ih =>
    intro st buffers hbuf
    obtain ⟨st1, bufs1, hrun1, hlen1, hns1, hr1, hfs1, hft1⟩ :=
      processSegments_spec opts format sid spot st buffers hbuf
    obtain ⟨st', bufs', hrun, hlen, hns, hr, hfs, hft⟩ :=
      ih (inc_spots st1) bufs1 hlen1
    refine ⟨st', bufs', ?_, hlen, ?_, ?_, ?_, ?_⟩
    · simp only [processSpots, processSpot, hrun1]
      exact hrun
    · rw [hns]
      simp only [inc_spots, List.length_cons]
      omega
    · rw [hr]
      simp only [inc_spots, List.map_cons, List.sum_cons]
      omega
    · rw [hfs]
      simp only [inc_spots, List.map_cons, List.sum_cons]
      omega
    · rw [hft]
      simp only [inc_spots, List.map_cons, List.sum_cons]
      omega

/-- Summing four per-spot counts that always total 1 gives the spot count. -/
theorem sum_four_ones (f1 f2 f3 f4 : List Segment → Nat)
    (spots : List (List Segment))
    (h : ∀ sp ∈ spots, f1 sp + f2 sp + f3 sp + f4 sp = 1) :
    (spots.map f1).sum + (spots.map f2).sum + (spots.map f3).sum
      + (spots.map f4).sum = spots.length := by
  induction spots with
  | nil => simp
  | cons sp rest ih =>
    have hsp := h sp (by simp)
    have hrest := ih (fun x hx => h x (by simp [hx]))
    simp only [List.map_cons, List.sum_cons, List.length_cons]
    omega

/-- C2: for a worker over its partition (interleaved sink) and any sid such
that every spot carries exactly one segment with that sid, the returned
statistics satisfy
`written[sid] = spots_in_range - filter_size[sid] - filter_type[sid] -
skipped_by_include[sid]`, with `spots_in_range = num_spots` the number of
spots iterated. -/
theorem c2_count_law (opts : FilterOptions) (format : OutputFormat)
    (spots : List (List Segment)) (sid : Nat) (st : ProcessStatistics)
    (bufs : List (List Nat))
    (huni : ∀ spot ∈ spots, (spot.filter (fun s => s.sid == sid)).length = 1)
    (hrun : processRange opts format 1 spots = .ok (st, bufs)) :
    st.num_spots = spots.length
    ∧ st.reads_per_segment.getD sid 0
        = st.num_spots - st.filter_size.getD sid 0 - st.filter_type.getD sid 0
          - skipped_by_include opts sid spots := by
  obtain ⟨st', bufs', hrun', hlen, hns, hr, hfs, hft⟩ :=
    processSpots_spec opts format sid spots statsDefault
      (List.replicate 1 []) (by simp)
  rw [processRange, hrun'] at hrun
  have hst : st = st' := by
    injection hrun with h
    injection h with h1 h2
    exact h1.symm
  subst hst
  have hz1 : statsDefault.reads_per_segment.getD sid 0 = 0 :=
    getD_replicate_zero 4 sid
  have hz2 : statsDefault.filter_size.getD sid 0 = 0 :=
    getD_replicate_zero 4 sid
  have hz3 : statsDefault.filter_type.getD sid 0 = 0 :=
    getD_replicate_zero 4 sid
  have hz4 : statsDefault.num_spots = 0 := rfl
  have htot := sum_four_ones (catCount opts .accepted sid)
    (catCount opts .skippedInclude sid) (catCount opts .droppedType sid)
    (catCount opts .droppedSize sid) spots
    (fun sp hsp => by rw [catCount_total]; exact huni sp hsp)
  have hskip : skipped_by_include opts sid spots
      = (spots.map (catCount opts .skippedInclude sid)).sum := rfl
  constructor
  · omega
  · rw [hr, hfs, hft, hskip, hz1, hz2, hz3]
    omega

/-- Witness for C2 on the concrete scenario run (sid 0). -/
theorem c2_count_law_witness :
    scenarioStats.num_spots = 3
    ∧ scenarioStats.reads_per_segment.getD 0 0
        = scenarioStats.num_spots - scenarioStats.filter_size.getD 0 0
          - scenarioStats.filter_type.getD 0 0
          - skipped_by_include noFilter 0 scenarioArchive := by
  have h := c2_count_law noFilter .Fastq scenarioArchive 0 scenarioStats
    [scenarioOut] (by decide) rfl
  exact ⟨by rw [h.1]; rfl, h.2⟩
